import Mathlib

/-!
# Verification of the sensevoice_cpp speech front end

Shallow embedding of the core algorithms of the repository:
`AudioProcessor` (framing, preemphasis, mel filterbank, CMVN),
`ASRModel::decodeCTC`, `VADDetector` (neural VAD state machine) and
`AudioRecorder` (capture state machine, Silero-VAD accumulation).
Sample values are modelled as exact rationals `ℚ`; C++ `size_t`/`int`
arithmetic is modelled explicitly where overflow matters.
-/

namespace SenseVoice

/-! ## C-level integer arithmetic (for `AudioProcessor::frameSignal`)

`frameSignal` computes
`num_frames = static_cast<int>((signal.size() - frame_length) / frame_shift) + 1`
where `signal.size()` is a 64-bit unsigned `size_t` and `frame_length`,
`frame_shift` are `int`s promoted to `size_t`.  We model the unsigned
subtraction modulo `2^64` and the truncating conversion to a 32-bit
two's-complement `int`. -/

/-- Unsigned 64-bit subtraction `a - b` as performed on `size_t`. -/
def usub64 (a b : Nat) : Nat :=
  (a + (2 ^ 64 - b % 2 ^ 64)) % 2 ^ 64

/-- Truncating conversion of a `size_t` value to a two's-complement
32-bit `int` (C++20 semantics). -/
def toInt32 (x : Nat) : Int :=
  if x % 2 ^ 32 < 2 ^ 31 then ((x % 2 ^ 32 : Nat) : Int)
  else ((x % 2 ^ 32 : Nat) : Int) - 2 ^ 32

/-- The `num_frames` value computed by `AudioProcessor::frameSignal`
(audio_processor.cpp line 188) for a signal of length `len`:
`static_cast<int>((signal.size() - frame_length) / frame_shift) + 1`. -/
def numFramesCode (len frameLength frameShift : Nat) : Int :=
  toInt32 (usub64 len frameLength / frameShift) + 1

/-- Conversion of an `int` back to `size_t`, as happens when the
(possibly negative) `num_frames` is passed to `std::vector::reserve`. -/
def intToSizeT (n : Int) : Nat :=
  (n % 2 ^ 64).toNat

/-- An upper bound on `std::vector<std::vector<float>>::max_size()`:
an element occupies 24 bytes, so `max_size ≤ 2^64 / 24`. -/
def vecMaxSizeBound : Nat := 2 ^ 64 / 24

/-! ## CTC greedy decoding (`ASRModel::decodeCTC`)

asr_model.cpp lines 255-280.  The flattened `[T*V]` logits vector with
`vocab_size = logits.size() / sequence_length` is modelled as a list of
rows.  Logit values are modelled as exact rationals; `float` comparison
on non-NaN values agrees with the rational order. -/

/-- The inner argmax loop of `decodeCTC`: `v` is the index of the head of
`rest` in the full row, `maxTok`/`maxProb` are the running best.  A new
element wins only with a strictly larger value (`>`), so ties keep the
earlier index. -/
def argmaxGo : List ℚ → Nat → Nat → ℚ → Nat
  | [], _, maxTok, _ => maxTok
  | p :: tl, v, maxTok, maxProb =>
    if maxProb < p then argmaxGo tl (v + 1) v p
    else argmaxGo tl (v + 1) maxTok maxProb

/-- Per-timestep argmax of `decodeCTC`: `max_token = 0`,
`max_prob = logits[t*vocab_size]`, then scan `v = 1 .. vocab_size-1`. -/
def argmaxRow : List ℚ → Nat
  | [] => 0
  | p :: tl => argmaxGo tl 1 0 p

/-- The emission loop of `decodeCTC`, with `prev` the previous raw
argmax (initially `-1`): emit `max_token` iff it differs from `blankId`
and from `prev`; `prev` is updated to the raw argmax every step. -/
def decodeCTCGo (blankId : Int) : List (List ℚ) → Int → List Int
  | [], _ => []
  | r :: tl, prev =>
    let m : Int := (argmaxRow r : Nat)
    (if m ≠ blankId ∧ m ≠ prev then [m] else []) ++ decodeCTCGo blankId tl m

/-- `ASRModel::decodeCTC` on a `[T][V]` logits matrix:
`int prev_token = -1` and one argmax-and-emit step per row. -/
def decodeCTC (logits : List (List ℚ)) (blankId : Int) : List Int :=
  decodeCTCGo blankId logits (-1)

/-- Modelled from the spec: the blank-removal-plus-duplicate-collapse
rule stated in §4.4, applied to the raw per-step argmax stream — emit a
symbol exactly when it differs from `blankId` and from the previous raw
argmax (sentinel `-1` before the first step). -/
def ctcCollapse (blankId : Int) : List Int → Int → List Int
  | [], _ => []
  | a :: tl, prev =>
    (if a ≠ blankId ∧ a ≠ prev then [a] else []) ++ ctcCollapse blankId tl a

/-- The raw-argmax stream `[blank,2,2,blank,3,3,3,blank]` of the spec's
§8 example, realised as an explicit logits matrix with `V = 4`. -/
def c2Logits : List (List ℚ) :=
  [[1, 0, 0, 0], [0, 0, 1, 0], [0, 0, 1, 0], [1, 0, 0, 0],
   [0, 0, 0, 1], [0, 0, 0, 1], [0, 0, 0, 1], [1, 0, 0, 0]]

/-! ## Preemphasis (`AudioProcessor::preprocess`)

audio_processor.cpp lines 137-148: in-place
`for (size_t i = result.size() - 1; i > 0; --i)
   result[i] = result[i] - preemphasis * result[i-1];`
guarded by `config_.preemphasis > 0.0f`.  The loop argument `i` below is
the next index to update; `preemphLoop xs i` performs the updates at
indices `i, i-1, …, 1`.  (On an empty vector the C++ start index
`result.size() - 1` underflows to `2^64 - 1` and reads out of bounds;
see the C1 theorem.  The model uses the in-range bound `length - 1`.) -/

/-- The downward in-place preemphasis loop. -/
def preemphLoop (α : ℚ) : List ℚ → Nat → List ℚ
  | xs, 0 => xs
  | xs, i + 1 =>
    preemphLoop α (xs.set (i + 1) (xs.getD (i + 1) 0 - α * xs.getD i 0)) i

/-- `AudioProcessor::preprocess`: apply preemphasis iff `α > 0`. -/
def preprocess (α : ℚ) (xs : List ℚ) : List ℚ :=
  if 0 < α then preemphLoop α xs (xs.length - 1) else xs

/-! ## Mel filterbank (`AudioProcessor::initializeMelFilterbank`)

audio_processor.cpp lines 30-90.  The boundary FFT bins
`bin_points[i] = floor((n_fft + 1) * hz_points[i] / sample_rate)`
(clamped to `fft_size - 1`) are computed with library transcendentals
(`log10`, `pow`); the triangular-filter construction that follows is
modelled as a function of those bin indices `start = bin_points[i]`,
`center = bin_points[i+1]`, `end = bin_points[i+2]`.  Each weight index
is written by at most one of the two loops (their ranges
`[start, center)` and `[center, end)` are disjoint) and every other
entry keeps its initial value `0`, so the row is the pointwise map
below. -/

/-- Weight of one triangular filter at FFT bin `j`, exactly as the two
loops of `initializeMelFilterbank` leave it: the left loop runs over
`start ≤ j < center` guarded by `center != start`, the right loop over
`center ≤ j < end` guarded by `end != center`, everything else is 0. -/
def melWeight (start center «end» j : Nat) : ℚ :=
  if start ≤ j ∧ j < center ∧ center ≠ start then
    ((j : ℚ) - start) / ((center : ℚ) - start)
  else if center ≤ j ∧ j < «end» ∧ «end» ≠ center then
    ((«end» : ℚ) - j) / ((«end» : ℚ) - center)
  else 0

/-- One row `mel_filterbank_[i]` of size `fft_size = n_fft/2 + 1`. -/
def melFilter (fftSize start center «end» : Nat) : List ℚ :=
  (List.range fftSize).map (melWeight start center «end»)

/-! ## CMVN (`AudioProcessor::applyCMVN`, `loadCMVN`)

audio_processor.cpp lines 104-112 and 304-315.  `std::sqrt` is an
external primitive; it is threaded through as a function parameter
`sqrtf`.  `loadCMVN` assigns `n_mels` means (0) and variances (1) and
sets `cmvn_loaded_`. -/

/-- One frame of `applyCMVN`: the loop runs for
`i < frame.size() && i < cmvn_mean_.size()` and replaces
`frame[i]` by `(frame[i] - mean[i]) / sqrt(var[i])`. -/
def applyCMVNFrame (sqrtf : ℚ → ℚ) (mean vari frame : List ℚ) : List ℚ :=
  (List.range frame.length).map fun i =>
    if i < mean.length then
      (frame.getD i 0 - mean.getD i 0) / sqrtf (vari.getD i 0)
    else frame.getD i 0

/-- `AudioProcessor::applyCMVN`: early-returns (leaves the matrix
unchanged) when `!cmvn_loaded_` or the matrix is empty — the latter is
absorbed by `List.map` on `[]` — else normalises every frame. -/
def applyCMVN (loaded : Bool) (sqrtf : ℚ → ℚ) (mean vari : List ℚ)
    (features : List (List ℚ)) : List (List ℚ) :=
  if loaded then features.map (applyCMVNFrame sqrtf mean vari) else features

/-- The statistics `loadCMVN` installs: `n_mels` zeros / ones. -/
def loadCMVNMean (nMels : Nat) : List ℚ := List.replicate nMels 0

/-- The variances `loadCMVN` installs. -/
def loadCMVNVar (nMels : Nat) : List ℚ := List.replicate nMels 1

/-! ## Neural VAD (`VADDetector`, vad_detector.cpp)

The ONNX session is the spec's opaque Inference Engine: it consumes
`(concatenated input, hidden state, cell state, sample rate)` and
produces `(probability, new hidden state, new cell state)`; a failing
`Run` is modelled as `none`.  `VADDetector::Config` defaults:
`sample_rate 16000`, `window_size 512`, `context_size 64`,
`history_size 10` (vad_detector.hpp lines 12-15). -/

/-- Output of one successful Inference Engine run. -/
structure EngineOut where
  prob : ℚ
  h : List ℚ
  c : List ℚ

/-- The opaque, deterministic Inference Engine consumed by the VAD. -/
def Engine : Type :=
  List ℚ → List ℚ → List ℚ → Int → Option EngineOut

/-- `VADDetector::Config`. -/
structure VADConfig where
  sampleRate : Int
  windowSize : Nat
  contextSize : Nat
  historySize : Nat

/-- The defaults of vad_detector.hpp. -/
def defaultVADConfig : VADConfig :=
  { sampleRate := 16000, windowSize := 512, contextSize := 64, historySize := 10 }

/-- `VADDetector`'s mutable state: LSTM hidden/cell state, rolling
context, and the probability-smoothing deque (front = oldest). -/
structure VADState where
  stateH : List ℚ
  stateC : List ℚ
  context : List ℚ
  probHistory : List ℚ

/-- `VADDetector::reset` (vad_detector.cpp lines 108-114): assigns
`2*1*128` zeros to each LSTM state, `context_size` zeros to the context,
and clears the history.  Every field is overwritten, so the previous
state `_s` is discarded entirely. -/
def VADreset (cfg : VADConfig) (_s : VADState) : VADState :=
  { stateH := List.replicate (2 * 1 * 128) 0, stateC := List.replicate (2 * 1 * 128) 0,
    context := List.replicate (1 * cfg.contextSize) 0, probHistory := [] }

/-- The input-fitting step of `detectVAD` (lines 128-140): truncate to
`window_size` when longer, zero-pad when shorter, copy when equal. -/
def fitToWindow (w : Nat) (audio : List ℚ) : List ℚ :=
  if audio.length ≠ w then audio.take w ++ List.replicate (w - audio.length) 0
  else audio

/-- Mean of the probability deque:
`std::accumulate(..., 0.0f) / prob_history_.size()`. -/
def listMean (l : List ℚ) : ℚ := l.sum / (l.length : ℚ)

/-- Push onto the deque, then `pop_front` when the size exceeds the
bound (lines 193-196). -/
def boundedPush (bound : Nat) (l : List ℚ) (p : ℚ) : List ℚ :=
  let l' := l ++ [p]
  if bound < l'.length then l'.tail else l'

/-- `VADDetector::detectVAD` (lines 120-206) as a pure state
transition.  Order follows the source: fit the input, concatenate
`x = context ++ input`, update the context *before* inference (so a
failing run still leaves the new context behind), run the engine,
replace both LSTM states from its outputs, push the raw probability
and return the smoothed mean.  The `catch` block returns `0.0f`. -/
def detectVAD (cfg : VADConfig) (engine : Engine) (audio : List ℚ)
    (s : VADState) : ℚ × VADState :=
  let inputAudio := fitToWindow cfg.windowSize audio
  let x := s.context ++ inputAudio
  let context' := if cfg.contextSize ≤ x.length then x.drop (x.length - cfg.contextSize)
                  else s.context
  match engine x s.stateH s.stateC cfg.sampleRate with
  | none => (0, { s with context := context' })
  | some o =>
    let hist' := boundedPush cfg.historySize s.probHistory o.prob
    (listMean hist',
     { stateH := o.h, stateC := o.c, context := context', probHistory := hist' })

/-- A sequence of `detectVAD` calls, returning the probability stream. -/
def runDetect (cfg : VADConfig) (engine : Engine) :
    List (List ℚ) → VADState → List ℚ
  | [], _ => []
  | a :: tl, s =>
    let r := detectVAD cfg engine a s
    r.1 :: runDetect cfg engine tl r.2

/-! ## Silero-VAD accumulation (`AudioRecorder::computeSileroVAD`)

audio_recorder.cpp lines 278-331: resample the callback chunk to
16 kHz, append it to the member ring buffer `vad_buffer_`, return 0
until `VAD_WINDOW_SIZE = 512` samples are held, else feed the latest
512 samples to `VADDetector::detectVAD` (trimming the buffer to its
last 512 samples once it exceeds `2 * 512`). -/

/-- The resampling branch (lines 288-309): identity at 16 kHz, 3:1
decimation at 48 kHz (indices 0, 3, 6, …), else nearest-index mapping
`src_idx = floor(i * rate/16000)` for
`new_size = floor(size / (rate/16000))` outputs; the C++ `double`
arithmetic is modelled with exact rationals. -/
def resampleChunk (sampleRate : Int) (chunk : List ℚ) : List ℚ :=
  if sampleRate = 16000 then chunk
  else if sampleRate = 48000 then
    (List.range ((chunk.length + 2) / 3)).map fun i => chunk.getD (3 * i) 0
  else
    let r : ℚ := (sampleRate : ℚ) / 16000
    let newSize : Nat := (((chunk.length : ℚ) / r).floor).toNat
    ((List.range newSize).filterMap fun i =>
      let srcIdx := ((i : ℚ) * r).floor.toNat
      if srcIdx < chunk.length then some (chunk.getD srcIdx 0) else none)

/-- `VAD_WINDOW_SIZE` (line 284). -/
def VAD_WINDOW_SIZE : Nat := 512

/-- Recorder-side VAD state: the accumulation buffer plus the
detector's state. -/
structure RecVADState where
  vadBuffer : List ℚ
  vd : VADState

/-- `AudioRecorder::computeSileroVAD` as a pure state transition
(composing with `detectVAD`; `vad_detector_` present). -/
def computeSileroVAD (cfg : VADConfig) (recSampleRate : Int) (engine : Engine)
    (chunk : List ℚ) (s : RecVADState) : ℚ × RecVADState :=
  let buf := s.vadBuffer ++ resampleChunk recSampleRate chunk
  if VAD_WINDOW_SIZE ≤ buf.length then
    let vadInput := buf.drop (buf.length - VAD_WINDOW_SIZE)
    let buf' := if VAD_WINDOW_SIZE * 2 < buf.length
                then buf.drop (buf.length - VAD_WINDOW_SIZE) else buf
    let r := detectVAD cfg engine vadInput s.vd
    (r.1, { vadBuffer := buf', vd := r.2 })
  else (0, { s with vadBuffer := buf })

/-! ## Capture state machine (`AudioRecorder::processAudioFrame`)

audio_recorder.cpp lines 109-173.  Time is modelled as a rational
`now` (seconds); the VAD probability computed for the frame by one of
the three branches (`computeEnergyVAD` / `computeSileroVAD` /
fallback) is passed in as `prob` — the capture-machine claims quantify
over its value.  The spec states `Idle ↔ !speech_detected_`,
`Recording ↔ speech_detected_ ∧ !should_stop_`,
`Stopped ↔ should_stop_` (the callback loop of `recordAudio` exits on
`should_stop_`). -/

/-- `AudioRecorder::Config` fields used by the state machine. -/
structure RecorderConfig where
  framesPerBuffer : Nat
  silenceDuration : ℚ
  maxRecordTime : ℚ
  triggerThreshold : ℚ

/-- The defaults of audio_recorder.hpp lines 25-29. -/
def defaultRecorderConfig : RecorderConfig :=
  { framesPerBuffer := 512, silenceDuration := 1, maxRecordTime := 5,
    triggerThreshold := 3 / 5 }

/-- Session state touched by `processAudioFrame`. -/
structure RecorderState where
  preSpeech : List ℚ
  audioBuffer : List ℚ
  speechDetected : Bool
  shouldStop : Bool
  lastSpeechTime : ℚ
  startTime : ℚ

/-- Lines 115-120: trim the pre-speech ring when it exceeds
`frames_per_buffer * 10` samples (dropping the first
`frames_per_buffer`), then append the incoming frame. -/
def pushPreSpeech (cfg : RecorderConfig) (frame pre : List ℚ) : List ℚ :=
  (if cfg.framesPerBuffer * 10 < pre.length then pre.drop cfg.framesPerBuffer else pre)
    ++ frame

/-- `AudioRecorder::processAudioFrame` (lines 109-173) as a pure state
transition: push the frame into the pre-speech ring *before* VAD; on a
speech-positive frame refresh `last_speech_time_` and, on the
`Idle → Recording` edge, seed `audio_buffer_` from the (just-updated)
pre-speech ring; while `speech_detected_`, append the frame and set
`should_stop_` when `now − last_speech > silence_duration` or (else)
`now − start > max_record_time`. -/
def processAudioFrame (cfg : RecorderConfig) (prob now : ℚ) (frame : List ℚ)
    (s : RecorderState) : RecorderState :=
  let pre := pushPreSpeech cfg frame s.preSpeech
  let isSpeech := cfg.triggerThreshold < prob
  let last' := if isSpeech then now else s.lastSpeechTime
  let sd' := if isSpeech then true else s.speechDetected
  let buf₁ := if isSpeech ∧ ¬s.speechDetected then s.audioBuffer ++ pre else s.audioBuffer
  if sd' then
    let buf₂ := buf₁ ++ frame
    let stop' := if cfg.silenceDuration < now - last' then true
                 else if cfg.maxRecordTime < now - s.startTime then true
                 else s.shouldStop
    { preSpeech := pre, audioBuffer := buf₂, speechDetected := sd',
      shouldStop := stop', lastSpeechTime := last', startTime := s.startTime }
  else
    { preSpeech := pre, audioBuffer := buf₁, speechDetected := sd',
      shouldStop := s.shouldStop, lastSpeechTime := last', startTime := s.startTime }

/-! ## Helper lemmas -/

/-- `getD` of a map over `List.range`. -/
theorem rangeMap_getD (n : Nat) (f : Nat → ℚ) (j : Nat) (h : j < n) :
    ((List.range n).map f).getD j 0 = f j := by
  simp [List.getD_eq_getElem?_getD, List.getElem?_map, List.getElem?_range h]

/-- `preemphLoop` preserves the length. -/
theorem preemphLoop_length (α : ℚ) : ∀ (i : Nat) (xs : List ℚ),
    (preemphLoop α xs i).length = xs.length := by
  intro i
  induction i with
  | zero => intro xs; rfl
  | succ i ih => intro xs; rw [preemphLoop, ih, List.length_set]

/-- Pointwise description of the downward preemphasis loop: updating
indices `i, …, 1` in descending order reads only indices that have not
yet been written, so every updated entry is
`xs[j] - α·xs[j-1]` over the *original* list. -/
theorem preemphLoop_getD (α : ℚ) : ∀ (i : Nat) (xs : List ℚ), i < xs.length → ∀ j,
    (preemphLoop α xs i).getD j 0
      = if 1 ≤ j ∧ j ≤ i then xs.getD j 0 - α * xs.getD (j - 1) 0
        else xs.getD j 0 := by
  intro i
  induction i with
  | zero =>
    intro xs _ j
    rw [preemphLoop, if_neg (by omega : ¬(1 ≤ j ∧ j ≤ 0))]
  | succ i ih =>
    intro xs hi j
    have hlen : i < (xs.set (i + 1) (xs.getD (i + 1) 0 - α * xs.getD i 0)).length := by
      rw [List.length_set]; omega
    rw [preemphLoop, ih _ hlen j]
    have hset : ∀ k, k ≠ i + 1 →
        (xs.set (i + 1) (xs.getD (i + 1) 0 - α * xs.getD i 0)).getD k 0 = xs.getD k 0 := by
      intro k hk
      simp [List.getD_eq_getElem?_getD, List.getElem?_set_ne (Ne.symm hk)]
    have hsetEq :
        (xs.set (i + 1) (xs.getD (i + 1) 0 - α * xs.getD i 0)).getD (i + 1) 0
          = xs.getD (i + 1) 0 - α * xs.getD i 0 := by
      simp [List.getD_eq_getElem?_getD, List.getElem?_set_self hi]
    by_cases h1 : 1 ≤ j ∧ j ≤ i
    · have hne : j ≠ i + 1 := by omega
      have hne' : j - 1 ≠ i + 1 := by omega
      have hcond : 1 ≤ j ∧ j ≤ i + 1 := by omega
      simp only [if_pos h1, if_pos hcond, hset j hne, hset (j - 1) hne']
    · by_cases h2 : j = i + 1
      · subst h2
        have hcond : 1 ≤ i + 1 ∧ i + 1 ≤ i + 1 := by omega
        simp only [if_neg h1, if_pos hcond, hsetEq, Nat.add_sub_cancel]
      · have hcond : ¬(1 ≤ j ∧ j ≤ i + 1) := by omega
        simp only [if_neg h1, if_neg hcond, hset j h2]

/-- Behaviour of the argmax scan `argmaxGo`: either nothing beats the
running maximum, or the result points at the first strict improver of
the running maximum among the remaining elements, every element before
it being strictly below it and every element after it at most it. -/
theorem argmaxGo_spec (rest : List ℚ) : ∀ (v t : Nat) (m : ℚ),
    (argmaxGo rest v t m = t ∧ ∀ p ∈ rest, p ≤ m)
  ∨ ∃ pre x suf, rest = pre ++ x :: suf ∧ argmaxGo rest v t m = v + pre.length
      ∧ m < x ∧ (∀ p ∈ pre, p < x) ∧ (∀ p ∈ suf, p ≤ x) := by
  induction rest with
  | nil => intro v t m; exact Or.inl ⟨rfl, by simp⟩
  | cons p tl ih =>
    intro v t m
    by_cases hp : m < p
    · rcases ih (v + 1) v p with ⟨heq, hall⟩ | ⟨pre, x, suf, hsplit, heq, hlt, hpre, hsuf⟩
      · refine Or.inr ⟨[], p, tl, by simp, ?_, hp, by simp, ?_⟩
        · simpa [argmaxGo, hp] using heq
        · exact hall
      · refine Or.inr ⟨p :: pre, x, suf, by simp [hsplit], ?_, lt_trans hp hlt, ?_, hsuf⟩
        · simp only [argmaxGo, if_pos hp, heq, List.length_cons]
          omega
        · intro q hq
          rcases List.mem_cons.mp hq with h | h
          · exact h ▸ hlt
          · exact hpre q h
    · rcases ih (v + 1) t m with ⟨heq, hall⟩ | ⟨pre, x, suf, hsplit, heq, hlt, hpre, hsuf⟩
      · refine Or.inl ⟨by simpa [argmaxGo, hp] using heq, ?_⟩
        intro q hq
        rcases List.mem_cons.mp hq with h | h
        · exact h ▸ le_of_not_lt hp
        · exact hall q h
      · refine Or.inr ⟨p :: pre, x, suf, by simp [hsplit], ?_, hlt, ?_, hsuf⟩
        · simp only [argmaxGo, if_neg hp, heq, List.length_cons]
          omega
        · intro q hq
          rcases List.mem_cons.mp hq with h | h
          · exact h ▸ lt_of_le_of_lt (le_of_not_lt hp) hlt
          · exact hpre q h

/-- The emission loop of `decodeCTC` is the spec's collapse rule applied
to the raw per-step argmax stream, for every start value of `prev`. -/
theorem decodeCTCGo_eq_collapse (blankId : Int) (logits : List (List ℚ)) : ∀ prev,
    decodeCTCGo blankId logits prev
      = ctcCollapse blankId (logits.map fun r => ((argmaxRow r : Nat) : Int)) prev := by
  induction logits with
  | nil => intro prev; rfl
  | cons r tl ih => intro prev; simp [decodeCTCGo, ctcCollapse, ih]

/-- At the native 16 kHz rate the resampling branch is the identity. -/
theorem resampleChunk_16k (chunk : List ℚ) : resampleChunk 16000 chunk = chunk := by
  rw [resampleChunk, if_pos rfl]

/-! ## Claim theorems -/

set_option maxRecDepth 4000

/-- C1 (status: code_bug).  The spec says a waveform shorter than one
frame (400 samples) yields an empty FeatureMatrix.  In
`AudioProcessor::frameSignal` the expression
`(signal.size() - config_.frame_length)` is evaluated in `size_t`, so
for every such waveform it underflows: `num_frames` becomes the
negative garbage value `-1717986920` instead of `0`, and
`frames.reserve(num_frames)` converts it back to a `size_t` of about
`1.8·10^19`, which exceeds `vector::max_size()` and throws
`std::length_error` — `extractFeatures` fails rather than returning an
empty matrix.  (For the empty waveform, `preprocess` additionally
starts its loop at `result.size() - 1 = 2^64 - 1` and reads out of
bounds.) -/
theorem c1_frameSignal_underflow :
    (∀ len < 400, numFramesCode len 400 160 < 0)
    ∧ numFramesCode 0 400 160 = -1717986920
    ∧ numFramesCode 10 400 160 = -1717986920
    ∧ vecMaxSizeBound < intToSizeT (numFramesCode 10 400 160)
    ∧ usub64 0 1 = 2 ^ 64 - 1 :=
  ⟨by decide, by decide, by decide, by decide, by decide⟩

/-- Witness for C1's bounded quantifier at the concrete length 10. -/
theorem c1_frameSignal_underflow_witness :
    numFramesCode 10 400 160 < 0 :=
  c1_frameSignal_underflow.1 10 (by decide)

/-- C2 (status: confirmed).  CTC decoding takes the per-timestep argmax
with ties broken toward the lowest index (the chosen entry strictly
exceeds everything before it and is ≥ everything after it), emits a
token exactly when it differs from `blankId` and from the previous raw
per-step argmax (`ctcCollapse`, written from the spec, compares against
the raw stream, never the emitted one), and the raw stream
`[blank,2,2,blank,3,3,3,blank]` with `blankId = 0` decodes to
`[2, 3]`. -/
theorem c2_ctc_greedy_decode :
    (∀ (logits : List (List ℚ)) (blankId : Int),
        decodeCTC logits blankId
          = ctcCollapse blankId (logits.map fun r => ((argmaxRow r : Nat) : Int)) (-1))
  ∧ (∀ (p : ℚ) (tl : List ℚ), ∃ pre x suf,
        p :: tl = pre ++ x :: suf ∧ argmaxRow (p :: tl) = pre.length
        ∧ (∀ q ∈ pre, q < x) ∧ (∀ q ∈ suf, q ≤ x))
  ∧ (c2Logits.map fun r => ((argmaxRow r : Nat) : Int)) = [0, 2, 2, 0, 3, 3, 3, 0]
  ∧ decodeCTC c2Logits 0 = [2, 3] := by
  refine ⟨fun logits blankId => decodeCTCGo_eq_collapse blankId logits (-1), ?_, by decide, by decide⟩
  intro p tl
  rcases argmaxGo_spec tl 1 0 p with ⟨heq, hall⟩ | ⟨pre, x, suf, hsplit, heq, hlt, hpre, hsuf⟩
  · exact ⟨[], p, tl, by simp, by simpa [argmaxRow] using heq, by simp, hall⟩
  · refine ⟨p :: pre, x, suf, by simp [hsplit], ?_, ?_, hsuf⟩
    · simp only [argmaxRow, heq, List.length_cons]
      omega
    · intro q hq
      rcases List.mem_cons.mp hq with h | h
      · exact h ▸ hlt
      · exact hpre q h

/-- Witness for C2: the theorem applied at the concrete example. -/
theorem c2_ctc_greedy_decode_witness :
    decodeCTC c2Logits 0 = [2, 3] :=
  c2_ctc_greedy_decode.2.2.2

/-- C7 (status: confirmed).  Preemphasis updates from the highest index
downward, so every update reads the still-unfiltered `x[i-1]`: the
output is pointwise `x[j] - α·x[j-1]` over the original input for
`1 ≤ j < n`, the first sample is untouched, and a constant input `k`
maps to `k·(1-α)` at every index except the first.  (For `α = 0` the
filter branch is skipped and the identity agrees with the formula; the
hypothesis `0 ≤ α` covers both source branches.) -/
theorem c7_preemphasis (α : ℚ) (xs : List ℚ) (hα : 0 ≤ α) :
    (∀ j, (preprocess α xs).getD j 0
        = if 1 ≤ j ∧ j < xs.length then xs.getD j 0 - α * xs.getD (j - 1) 0
          else xs.getD j 0)
  ∧ ∀ (k : ℚ) (n j : Nat), 1 ≤ j → j < n →
      (preprocess α (List.replicate n k)).getD j 0 = k * (1 - α) := by
  have main : ∀ (ys : List ℚ) (j : Nat), (preprocess α ys).getD j 0
      = if 1 ≤ j ∧ j < ys.length then ys.getD j 0 - α * ys.getD (j - 1) 0
        else ys.getD j 0 := by
    intro ys j
    rcases lt_or_eq_of_le hα with hpos | hzero
    · rw [preprocess, if_pos hpos]
      match ys with
      | [] =>
        rw [if_neg (by simp)]
        rfl
      | a :: tl =>
        rw [preemphLoop_getD α _ _ (by simp only [List.length_cons]; omega) j]
        exact if_congr (by simp only [List.length_cons]; omega) rfl rfl
    · rw [preprocess, if_neg (by rw [← hzero]; exact lt_irrefl 0), ← hzero]
      split <;> ring_nf
  refine ⟨main xs, ?_⟩
  intro k n j h1 h2
  rw [main (List.replicate n k) j,
    if_pos ⟨h1, by simpa using h2⟩]
  have hj : (List.replicate n k).getD j 0 = k := by
    simp [List.getD_eq_getElem?_getD, List.getElem?_replicate, h2]
  have hj' : (List.replicate n k).getD (j - 1) 0 = k := by
    have : j - 1 < n := by omega
    simp [List.getD_eq_getElem?_getD, List.getElem?_replicate, this]
  rw [hj, hj']
  ring

/-- Witness for C7 at `α = 97/100`, the constant input `3` of length 4,
index 2. -/
theorem c7_preemphasis_witness :
    (preprocess (97 / 100) (List.replicate 4 (3 : ℚ))).getD 2 0 = 3 * (1 - 97 / 100) :=
  (c7_preemphasis (97 / 100) (List.replicate 4 (3 : ℚ)) (by norm_num)).2
    3 4 2 (by norm_num [defaultRecorderConfig]) (by norm_num [defaultRecorderConfig])

/-- C5, counterexample (status: corrected).  A filter whose center and
upper boundary bins coincide never attains weight 1: with
`start = 1, center = 2, end = 2` (the bins of filter 2 under the
default 16 kHz / 80-mel / 512-FFT configuration, where
`bin_points[2..4] = 1, 2, 2`) the weight at `bin_{i+1} = 2` is `0`,
not `1.0` as the claim requires. -/
theorem c5_mel_peak_counterexample :
    (melFilter 257 1 2 2).getD 2 0 = 0 ∧ (melFilter 257 1 2 2).getD 2 0 ≠ 1 := by
  have h : (melFilter 257 1 2 2).getD 2 0 = melWeight 1 2 2 2 :=
    rangeMap_getD 257 (melWeight 1 2 2) 2 (by norm_num)
  rw [h]
  refine ⟨by decide, by decide⟩

/-- C5, amended (status: corrected).  For every filter with boundary
bins `start ≤ center ≤ end` (bin points are monotone) and every FFT bin
`j < fftSize`: the weight is `0` outside `[start, end)`, ramps linearly
as `(j-start)/(center-start)` on `[start, center)` and as
`(end-j)/(end-center)` on `[center, end)`, and equals exactly `1.0` at
`center` **provided `center < end`**; in the degenerate case
`center = end` (coincident bin boundaries, which occur for low filters
at the default configuration) the weight at `center` is `0`. -/
theorem c5_mel_triangle (fftSize s c e j : Nat) (hsc : s ≤ c) (hce : c ≤ e)
    (hj : j < fftSize) :
    ((j < s ∨ e ≤ j) → (melFilter fftSize s c e).getD j 0 = 0)
  ∧ (s ≤ j → j < c → (melFilter fftSize s c e).getD j 0 = ((j : ℚ) - s) / ((c : ℚ) - s))
  ∧ (c ≤ j → j < e → (melFilter fftSize s c e).getD j 0 = ((e : ℚ) - j) / ((e : ℚ) - c))
  ∧ (j = c → c < e → (melFilter fftSize s c e).getD j 0 = 1)
  ∧ (j = c → c = e → (melFilter fftSize s c e).getD j 0 = 0) := by
  rw [show melFilter fftSize s c e = (List.range fftSize).map (melWeight s c e) from rfl,
    rangeMap_getD fftSize (melWeight s c e) j hj]
  refine ⟨?_, ?_, ?_, ?_, ?_⟩
  · rintro (h | h)
    · rw [melWeight, if_neg (by omega), if_neg (by omega)]
    · rw [melWeight, if_neg (by omega), if_neg (by omega)]
  · intro h1 h2
    rw [melWeight, if_pos ⟨h1, h2, by omega⟩]
  · intro h1 h2
    rw [melWeight, if_neg (by omega), if_pos ⟨h1, h2, by omega⟩]
  · intro h1 h2
    subst h1
    rw [melWeight, if_neg (by omega), if_pos ⟨le_refl j, by omega, by omega⟩]
    have : ((e : ℚ) - j) ≠ 0 := by
      have : (j : ℚ) < (e : ℚ) := by exact_mod_cast h2
      intro hc; linarith
    field_simp
  · intro h1 h2
    subst h1; subst h2
    rw [melWeight, if_neg (by omega), if_neg (by omega)]

/-- Witness for C5's amended theorem: filter `(0, 1, 2)` on a 257-bin
row peaks at exactly `1.0` at its center bin. -/
theorem c5_mel_triangle_witness :
    (melFilter 257 0 1 2).getD 1 0 = 1 :=
  (c5_mel_triangle 257 0 1 2 1 (by norm_num) (by norm_num) (by norm_num)).2.2.2.1
    rfl (by norm_num)

/-- C4 (status: confirmed).  With no statistics loaded
(`cmvn_loaded_ = false`) the matrix passes through unchanged; with
statistics loaded, every frame is rewritten and every dimension `d`
covered by the statistics (the loop bound `i < frame.size() && i <
cmvn_mean_.size()`; `loadCMVN` installs `n_mels` means and variances)
becomes `(x[d] - mean[d]) / sqrt(var[d])`, with `std::sqrt` threaded
through as the opaque parameter `sqrtf`. -/
theorem c4_cmvn (sqrtf : ℚ → ℚ) (mean vari : List ℚ) (feats : List (List ℚ)) :
    applyCMVN false sqrtf mean vari feats = feats
  ∧ applyCMVN true sqrtf mean vari feats = feats.map (applyCMVNFrame sqrtf mean vari)
  ∧ ∀ (frame : List ℚ) (d : Nat), d < frame.length → d < mean.length →
      (applyCMVNFrame sqrtf mean vari frame).getD d 0
        = (frame.getD d 0 - mean.getD d 0) / sqrtf (vari.getD d 0) := by
  refine ⟨rfl, rfl, ?_⟩
  intro frame d hd hm
  rw [applyCMVNFrame, rangeMap_getD frame.length _ d hd, if_pos hm]

/-- Witness for C4 at statistics `mean = [1]`, `var = [4]`,
`sqrtf = id`, frame `[7]`. -/
theorem c4_cmvn_witness :
    (applyCMVNFrame id [1] [4] [7]).getD 0 0 = ((7 : ℚ) - 1) / id 4 :=
  (c4_cmvn id [1] [4] [[7]]).2.2 [7] 0 (by norm_num [defaultRecorderConfig]) (by norm_num [defaultRecorderConfig])

/-- C3 (status: confirmed).  One call of the neural VAD path at the
default configuration (16 kHz, `window_size = 512`,
`context_size = 64`, `history_size = 10`): while fewer than 512 samples
have accumulated, the chunk is appended to the ring buffer and 0 is
returned with the detector state untouched; once at least 512 samples
are held, the most recent 512 are taken, the rolling context is
prepended, the engine is invoked, the context becomes the trailing 64
samples of the concatenated input, the hidden/cell states are replaced
by the engine's outputs, the raw probability is pushed into the
10-bounded FIFO, and the FIFO's mean is returned. -/
theorem c3_neural_vad_step (engine : Engine) (chunk : List ℚ) (s : RecVADState) :
    ((s.vadBuffer ++ chunk).length < 512 →
      computeSileroVAD defaultVADConfig 16000 engine chunk s
        = (0, { vadBuffer := s.vadBuffer ++ chunk, vd := s.vd }))
  ∧ (512 ≤ (s.vadBuffer ++ chunk).length →
      ∀ o : EngineOut,
        engine (s.vd.context
            ++ (s.vadBuffer ++ chunk).drop ((s.vadBuffer ++ chunk).length - 512))
            s.vd.stateH s.vd.stateC 16000 = some o →
        computeSileroVAD defaultVADConfig 16000 engine chunk s
          = (listMean (boundedPush 10 s.vd.probHistory o.prob),
             { vadBuffer :=
                 if 512 * 2 < (s.vadBuffer ++ chunk).length
                 then (s.vadBuffer ++ chunk).drop ((s.vadBuffer ++ chunk).length - 512)
                 else s.vadBuffer ++ chunk,
               vd := { stateH := o.h, stateC := o.c,
                       context :=
                         (s.vd.context ++ (s.vadBuffer ++ chunk).drop
                             ((s.vadBuffer ++ chunk).length - 512)).drop
                           ((s.vd.context ++ (s.vadBuffer ++ chunk).drop
                               ((s.vadBuffer ++ chunk).length - 512)).length - 64),
                       probHistory := boundedPush 10 s.vd.probHistory o.prob } })) := by
  have hv : VAD_WINDOW_SIZE = 512 := rfl
  constructor
  · intro h
    unfold computeSileroVAD
    rw [resampleChunk_16k, if_neg (by rw [hv]; omega)]
  · intro h o ho
    unfold computeSileroVAD
    rw [resampleChunk_16k, if_pos (by rw [hv]; omega)]
    unfold detectVAD
    simp only [hv]
    have hlen : ((s.vadBuffer ++ chunk).drop
        ((s.vadBuffer ++ chunk).length - 512)).length = 512 := by
      rw [List.length_drop]; omega
    have hfit : fitToWindow defaultVADConfig.windowSize
        ((s.vadBuffer ++ chunk).drop ((s.vadBuffer ++ chunk).length - 512))
        = (s.vadBuffer ++ chunk).drop ((s.vadBuffer ++ chunk).length - 512) := by
      rw [fitToWindow, if_neg]
      rw [hlen]
      simp [defaultVADConfig]
    have hguard : (64 : Nat)
        ≤ (s.vd.context ++ (s.vadBuffer ++ chunk).drop
            ((s.vadBuffer ++ chunk).length - 512)).length := by
      rw [List.length_append, hlen]
      omega
    simp only [hfit, ho, if_pos hguard,
      show defaultVADConfig.sampleRate = (16000 : Int) from rfl,
      show defaultVADConfig.contextSize = 64 from rfl,
      show defaultVADConfig.historySize = 10 from rfl]

/-- Witness for C3: a zeroed 512-sample chunk on an empty state with a
constant engine crosses the window threshold and produces the smoothed
output described by the theorem. -/
theorem c3_neural_vad_step_witness :
    512 ≤ (([] : List ℚ) ++ List.replicate 512 (0 : ℚ)).length ∧
    computeSileroVAD defaultVADConfig 16000 (fun _ _ _ _ => some ⟨1 / 2, [], []⟩)
        (List.replicate 512 (0 : ℚ)) ⟨[], ⟨[], [], [], []⟩⟩
      = (listMean (boundedPush 10 [] (1 / 2)),
         { vadBuffer :=
             if 512 * 2 < (([] : List ℚ) ++ List.replicate 512 (0 : ℚ)).length
             then (([] : List ℚ) ++ List.replicate 512 (0 : ℚ)).drop
                 ((([] : List ℚ) ++ List.replicate 512 (0 : ℚ)).length - 512)
             else ([] : List ℚ) ++ List.replicate 512 (0 : ℚ),
           vd := { stateH := [], stateC := [],
                   context :=
                     (([] : List ℚ) ++ (([] : List ℚ) ++ List.replicate 512 (0 : ℚ)).drop
                         ((([] : List ℚ) ++ List.replicate 512 (0 : ℚ)).length - 512)).drop
                       ((([] : List ℚ) ++ (([] : List ℚ) ++ List.replicate 512 (0 : ℚ)).drop
                           ((([] : List ℚ) ++ List.replicate 512 (0 : ℚ)).length - 512)).length
                         - 64),
                   probHistory := boundedPush 10 [] (1 / 2) } }) := by
  refine ⟨by simp, ?_⟩
  exact (c3_neural_vad_step (fun _ _ _ _ => some ⟨1 / 2, [], []⟩)
    (List.replicate 512 (0 : ℚ)) ⟨[], ⟨[], [], [], []⟩⟩).2 (by simp) ⟨1 / 2, [], []⟩ rfl

/-- C8 (status: confirmed).  When the engine run fails, `detectVAD`'s
catch block returns probability `0` for that frame instead of
propagating the failure. -/
theorem c8_vad_error_returns_zero (cfg : VADConfig) (engine : Engine) (audio : List ℚ)
    (s : VADState)
    (h : engine (s.context ++ fitToWindow cfg.windowSize audio) s.stateH s.stateC
        cfg.sampleRate = none) :
    (detectVAD cfg engine audio s).1 = 0 := by
  unfold detectVAD
  simp only [h]

/-- Witness for C8: an always-failing engine on an empty state. -/
theorem c8_vad_error_returns_zero_witness :
    (detectVAD defaultVADConfig (fun _ _ _ _ => none) [] ⟨[], [], [], []⟩).1 = 0 :=
  c8_vad_error_returns_zero defaultVADConfig (fun _ _ _ _ => none) [] ⟨[], [], [], []⟩ rfl

/-- C9 (status: confirmed).  `reset()` overwrites every component of
the VAD state — both LSTM states become `2·1·128` zeros, the context
becomes `context_size` zeros, the history empties — so the reset state
is independent of the prior state, and two runs over the same input
sequence through the same (deterministic) engine, each started by
`reset()`, return identical probability sequences regardless of the
states the sessions left behind. -/
theorem c9_reset_no_leak :
    (∀ (cfg : VADConfig) (s : VADState),
        VADreset cfg s
          = { stateH := List.replicate 256 0, stateC := List.replicate 256 0,
              context := List.replicate cfg.contextSize 0, probHistory := [] })
  ∧ ∀ (cfg : VADConfig) (engine : Engine) (inputs : List (List ℚ)) (s₁ s₂ : VADState),
      runDetect cfg engine inputs (VADreset cfg s₁)
        = runDetect cfg engine inputs (VADreset cfg s₂) := by
  constructor
  · intro cfg s
    simp [VADreset]
  · intro cfg engine inputs s₁ s₂
    rfl

/-- C6 (status: confirmed).  While in the Recording state
(`speech_detected_`), the machine sets `should_stop_` whenever the
frame is not speech-positive and `now − last_speech >
silence_duration`, and whenever `now − start > max_record_time` — the
latter for any probability, in particular when every frame stays above
`trigger_threshold` (a speech-positive frame refreshes `last_speech` to
`now`, making the silence branch `0 > silence_duration` false, so the
`else if` hard cap fires; continuous speech never postpones it). -/
theorem c6_recording_stops (cfg : RecorderConfig) (prob now : ℚ) (frame : List ℚ)
    (s : RecorderState) (hrec : s.speechDetected = true) :
    (prob ≤ cfg.triggerThreshold → cfg.silenceDuration < now - s.lastSpeechTime →
        (processAudioFrame cfg prob now frame s).shouldStop = true)
  ∧ (0 ≤ cfg.silenceDuration → cfg.maxRecordTime < now - s.startTime →
        (processAudioFrame cfg prob now frame s).shouldStop = true) := by
  constructor
  · intro hp hsil
    have hns : ¬(cfg.triggerThreshold < prob) := not_lt.mpr hp
    simp [processAudioFrame, hns, hrec, hsil]
  · intro hsd hmax
    by_cases hp : cfg.triggerThreshold < prob
    · have hnosil : ¬(cfg.silenceDuration < now - now) := by
        rw [sub_self]; exact not_lt.mpr hsd
      simp [processAudioFrame, hp, hrec, hnosil, hmax]
    · by_cases hsil : cfg.silenceDuration < now - s.lastSpeechTime
      · simp [processAudioFrame, hp, hrec, hsil]
      · simp [processAudioFrame, hp, hrec, hsil, hmax]

/-- Witness for C6: at the default configuration, a speech-positive
frame (`prob = 1 > 0.6`) arriving 6 s after the session start (hard cap
5 s) stops the recording. -/
theorem c6_recording_stops_witness :
    (processAudioFrame defaultRecorderConfig 1 6 []
      ⟨[], [], true, false, 6, 0⟩).shouldStop = true :=
  (c6_recording_stops defaultRecorderConfig 1 6 [] ⟨[], [], true, false, 6, 0⟩ rfl).2
    (by norm_num [defaultRecorderConfig]) (by norm_num [defaultRecorderConfig])

/-- C10 (status: confirmed).  On the `Idle → Recording` edge (first
frame with `prob > trigger_threshold`), the accumulated buffer receives
the pre-speech ring — which already ends with the trigger frame, pushed
before VAD ran — and then the trigger frame again: the session buffer
starts with the ring contents followed immediately by a duplicate copy
of the trigger frame. -/
theorem c10_trigger_frame_duplicated (cfg : RecorderConfig) (prob now : ℚ)
    (frame : List ℚ) (s : RecorderState) (hidle : s.speechDetected = false)
    (htrig : cfg.triggerThreshold < prob) :
    (processAudioFrame cfg prob now frame s).audioBuffer
      = s.audioBuffer ++ pushPreSpeech cfg frame s.preSpeech ++ frame
  ∧ pushPreSpeech cfg frame s.preSpeech
      = (if cfg.framesPerBuffer * 10 < s.preSpeech.length
         then s.preSpeech.drop cfg.framesPerBuffer else s.preSpeech) ++ frame := by
  constructor
  · simp [processAudioFrame, htrig, hidle]
  · rfl

/-- Witness for C10: ring `[5]`, trigger frame `[9]` — the session
buffer becomes `[5, 9, 9]`. -/
theorem c10_trigger_frame_duplicated_witness :
    (processAudioFrame defaultRecorderConfig 1 0 [9]
        ⟨[5], [], false, false, 0, 0⟩).audioBuffer
      = [] ++ pushPreSpeech defaultRecorderConfig [9] [5] ++ [9] :=
  (c10_trigger_frame_duplicated defaultRecorderConfig 1 0 [9]
    ⟨[5], [], false, false, 0, 0⟩ rfl (by norm_num [defaultRecorderConfig])).1

end SenseVoice
